import Mathlib

/-!
Verification of the Zoclau CLI process/stream-protocol engine
(`src/src/index.ts`, class `ClaudeService`) against its specification.

The TypeScript source is shallowly embedded: JSON values become the
inductive `JValue`; the JavaScript string operations used by the source
(`trim`, `toLowerCase`, `includes`, `split`, …) are re-implemented over
character lists so that every definition is executable and reduces in the
kernel; the stateful engine (`sendMessage`) becomes a pure function from an
engine state and an observed subprocess trace to a final state plus the
ordered list of fired callbacks.  Genuine I/O (spawning, pipe reads, JSON
parsing of raw bytes, the JS regular-expression engine) is abstracted at
clearly named seams: a `Trace` records what the subprocess did, a
`RegexEngine` parameter stands for `new RegExp(...)` compilation/testing.
-/

/-! ## JSON values and JavaScript value helpers -/

/-- A parsed JSON value, as produced by `JSON.parse` in the source.
`null` also stands for JavaScript `undefined` (the source only ever
distinguishes them through truthiness and `??`, where they agree). -/
inductive JValue where
  | null
  | bool (b : Bool)
  | num (n : Int)
  | str (s : String)
  | arr (elems : List JValue)
  | obj (fields : List (String × JValue))

/-- First-match lookup in a JSON object's field list. -/
def lookupField : List (String × JValue) → String → Option JValue
  | [], _ => none
  | (k, v) :: rest, key => if k = key then some v else lookupField rest key

/-- JavaScript property access `v.k` that distinguishes a present field:
`none` when `v` is not an object or lacks the field. -/
def getFieldOpt : JValue → String → Option JValue
  | .obj fs, k => lookupField fs k
  | _, _ => none

/-- JavaScript property access `v.k`, with absent fields read as
`undefined` (modelled by `JValue.null`). -/
def getField (v : JValue) (k : String) : JValue :=
  (getFieldOpt v k).getD .null

/-- JavaScript truthiness of a JSON value. -/
def jsTruthy : JValue → Bool
  | .null => false
  | .bool b => b
  | .num n => !(n = 0)
  | .str s => !(s = "")
  | .arr _ => true
  | .obj _ => true

/-- `v === "s"` for a string literal comparison in the source. -/
def jvIsStr (v : JValue) (s : String) : Bool :=
  match v with
  | .str t => t = s
  | _ => false

/-- JavaScript `a ?? b` (nullish coalescing). -/
def jsNullishOr (a b : JValue) : JValue :=
  match a with
  | .null => b
  | v => v

/-- JavaScript `typeof v === "object" && v` (arrays included, null excluded). -/
def jsIsObjectLike : JValue → Bool
  | .obj _ => true
  | .arr _ => true
  | _ => false

/-! ## JavaScript string operations, re-implemented over character lists -/

/-- The whitespace class used by JS `trim` / `\s` (common members). -/
def jsWhitespaceChar (c : Char) : Bool :=
  c = ' ' || c = '\t' || c = '\n' || c = '\r' ||
  c = Char.ofNat 11 || c = Char.ofNat 12 || c = Char.ofNat 160 || c = Char.ofNat 65279

/-- JavaScript `String.prototype.trim`. -/
def jsTrim (s : String) : String :=
  ⟨((s.data.dropWhile jsWhitespaceChar).reverse.dropWhile jsWhitespaceChar).reverse⟩

/-- ASCII lowering of one character (JS `toLowerCase`, restricted to the
ASCII range actually exercised by the source's rule/command matching). -/
def lowerChar (c : Char) : Char :=
  if 'A' ≤ c && c ≤ 'Z' then Char.ofNat (c.toNat + 32) else c

/-- JavaScript `String.prototype.toLowerCase` (ASCII). -/
def lowerString (s : String) : String := ⟨s.data.map lowerChar⟩

/-- Does `hay` start with `needle` (character-wise)? -/
def charsHavePrefix : List Char → List Char → Bool
  | _, [] => true
  | [], _ :: _ => false
  | c :: cs, d :: ds => c = d && charsHavePrefix cs ds

/-- Substring containment on character lists. -/
def charsInclude (hay needle : List Char) : Bool :=
  if charsHavePrefix hay needle then true
  else
    match hay with
    | [] => false
    | _ :: rest => charsInclude rest needle

/-- JavaScript `String.prototype.includes`. -/
def strIncludes (hay needle : String) : Bool := charsInclude hay.data needle.data

/-- JavaScript `String.prototype.startsWith`. -/
def strStartsWith (s pre : String) : Bool := charsHavePrefix s.data pre.data

/-- `replace(/\r\n?/g, '\n')` on a character list. -/
def normalizeNewlinesChars : List Char → List Char
  | [] => []
  | '\r' :: '\n' :: rest => '\n' :: normalizeNewlinesChars rest
  | '\r' :: rest => '\n' :: normalizeNewlinesChars rest
  | c :: rest => c :: normalizeNewlinesChars rest

/-- `replace(/\r\n?/g, '\n')`. -/
def normalizeNewlines (s : String) : String := ⟨normalizeNewlinesChars s.data⟩

/-- Splitting accumulator for `splitOnChar`. -/
def splitOnCharAux (sep : Char) : List Char → List Char → List (List Char)
  | [], acc => [acc.reverse]
  | c :: rest, acc =>
    if c = sep then acc.reverse :: splitOnCharAux sep rest []
    else splitOnCharAux sep rest (c :: acc)

/-- JavaScript `String.prototype.split` with a one-character separator. -/
def splitOnChar (sep : Char) (s : String) : List String :=
  (splitOnCharAux sep s.data []).map (fun cs => ⟨cs⟩)

/-! ## Configuration

Only the settings fields consumed by the modelled engine paths are kept
(the UI/persistence-only fields of `ZoclauSettings` are out of scope). -/

/-- The engine-relevant slice of `ZoclauSettings` (`src/src/settings/types.ts`
as consumed by the `ClaudeService` class in `src/src/index.ts`). -/
structure ZoclauSettings where
  userName : String
  model : String
  systemPrompt : String
  permissionMode : String
  loadUserClaudeSettings : Bool
  blockedCommandsWindows : String
  blockedCommandsUnix : String
deriving DecidableEq

/-- `parseLineList` (index.ts:1416): split the configured multi-line text,
trim each line, drop blanks and `#` comment lines. -/
def parseLineList (value : String) : List String :=
  (((splitOnChar '\n' (normalizeNewlines value)).map jsTrim).filter
    (fun line => !(line = "") && !(strStartsWith line "#")))

/-! ## Command blocklist gate -/

/-- The JS regular-expression engine, abstracted: `compile pattern flags`
returns a test predicate when `new RegExp(pattern, flags)` succeeds, and
`none` when construction throws. -/
structure RegexEngine where
  compile : String → String → Option (String → Bool)

/-- A regex engine whose every compilation fails; used for concrete runs
that exercise only literal-substring rules. -/
def noRegexEngine : RegexEngine := ⟨fun _ _ => none⟩

/-- Is `c` one of the regex flag characters `gimsuy`? -/
def isRegexFlagChar (c : Char) : Bool :=
  c = 'g' || c = 'i' || c = 'm' || c = 's' || c = 'u' || c = 'y'

/-- The shape test of `parseRegexRule` (index.ts:1425):
`pattern.match(/^\/(.+)\/([gimsuy]*)$/)` with its greedy `(.+)` group,
returning the pattern body and flag text. -/
def parseRegexForm (s : String) : Option (String × String) :=
  match s.data with
  | '/' :: rest =>
    let revRest := rest.reverse
    let flagsRev := revRest.takeWhile isRegexFlagChar
    match revRest.drop flagsRev.length with
    | '/' :: patRev =>
      if patRev = [] then none
      else some (⟨patRev.reverse⟩, ⟨flagsRev.reverse⟩)
    | _ => none
  | _ => none

/-- `parseRegexRule` (index.ts:1424): recognize a `/pattern/flags` rule,
strip the global flag, and compile; `none` when the rule is not in regex
form or compilation throws. -/
def parseRegexRule (E : RegexEngine) (rule : String) : Option (String → Bool) :=
  match parseRegexForm rule with
  | none => none
  | some (pat, flags) => E.compile pat ⟨flags.data.filter (fun c => !(c = 'g'))⟩

/-- The shell-likeness test of `extractCommandTextFromToolInput`
(index.ts:1437-1444). -/
def isShellLikeTool (toolName : String) : Bool :=
  let lowerName := lowerString toolName
  strIncludes lowerName "bash" || strIncludes lowerName "shell" ||
  strIncludes lowerName "terminal" || strIncludes lowerName "command" ||
  strIncludes lowerName "cmd"

/-- First non-empty string value among the direct keys
`command`, `cmd`, `script`, `input`, `text` (index.ts:1455-1461). -/
def firstDirectKeyValue (input : JValue) : List String → Option String
  | [] => none
  | key :: rest =>
    match getFieldOpt input key with
    | some (.str s) => if jsTrim s = "" then firstDirectKeyValue input rest else some (jsTrim s)
    | _ => firstDirectKeyValue input rest

/-- The string entries of a `commands` array, trimmed, blanks dropped,
joined with `&&` (index.ts:1463-1470). -/
def joinCommandsArray (elems : List JValue) : String :=
  let entries := elems.filterMap (fun e =>
    match e with
    | .str s => if jsTrim s = "" then none else some (jsTrim s)
    | _ => none)
  jsTrim (String.intercalate " && " entries)

/-- `extractCommandTextFromToolInput` (index.ts:1436): empty string for
non-shell-like tools; otherwise the tool input's command text. -/
def extractCommandTextFromToolInput (toolName : String) (input : JValue) : String :=
  if !(isShellLikeTool toolName) then ""
  else
    match input with
    | .str s => jsTrim s
    | .obj _ =>
      match firstDirectKeyValue input ["command", "cmd", "script", "input", "text"] with
      | some v => v
      | none =>
        match getFieldOpt input "commands" with
        | some (.arr elems) => joinCommandsArray elems
        | _ => ""
    | _ => ""

/-- One iteration of the rule loop in `getBlockedCommandMatch`
(index.ts:1486-1498): regex rules test the raw command, other rules are
case-insensitive literal substrings. -/
def ruleMatches (E : RegexEngine) (command rule : String) : Bool :=
  match parseRegexRule E rule with
  | some test => test command
  | none => strIncludes (lowerString command) (lowerString rule)

/-- `getBlockedCommandMatch` (index.ts:1475): extract the command text and
return the first matching configured rule, scanning the Windows list then
the Unix list. -/
def getBlockedCommandMatch (E : RegexEngine) (st : ZoclauSettings)
    (toolName : String) (input : JValue) : Option String :=
  let command := extractCommandTextFromToolInput toolName input
  if command = "" then none
  else
    let blockRules :=
      parseLineList st.blockedCommandsWindows ++ parseLineList st.blockedCommandsUnix
    if blockRules = [] then none
    else blockRules.find? (fun rule => ruleMatches E command rule)

/-- Modelled from the spec: the §4.1 contract
`matchBlockedRule(toolName, toolInput, rulesForThisOS)` — the gate as the
spec words it, parameterized by the single rule list for the host OS
family. -/
def matchBlockedRuleSpec (E : RegexEngine) (rulesForThisOS : List String)
    (toolName : String) (toolInput : JValue) : Option String :=
  let command := extractCommandTextFromToolInput toolName toolInput
  if command = "" then none
  else rulesForThisOS.find? (fun rule => ruleMatches E command rule)

/-! ## Depth of a JSON value (fuel for the recursive event unwrapping) -/

mutual

/-- Structural nesting depth of a JSON value. -/
def jsonDepth : JValue → Nat
  | .null => 1
  | .bool _ => 1
  | .num _ => 1
  | .str _ => 1
  | .arr xs => 1 + jsonDepthList xs
  | .obj fs => 1 + jsonDepthFields fs

/-- Depth of the deepest element of an array. -/
def jsonDepthList : List JValue → Nat
  | [] => 0
  | x :: xs => max (jsonDepth x) (jsonDepthList xs)

/-- Depth of the deepest field value of an object. -/
def jsonDepthFields : List (String × JValue) → Nat
  | [] => 0
  | (_, v) :: fs => max (jsonDepth v) (jsonDepthFields fs)

end

theorem jsonDepth_lookupField {fs : List (String × JValue)} {k : String} {v : JValue}
    (h : lookupField fs k = some v) : jsonDepth v ≤ jsonDepthFields fs := by
  induction fs with
  | nil => simp [lookupField] at h
  | cons kv rest ih =>
    obtain ⟨k', v'⟩ := kv
    by_cases hk : k' = k
    · simp [lookupField, hk] at h
      simp [jsonDepthFields, h]
    · simp [lookupField, hk] at h
      calc jsonDepth v ≤ jsonDepthFields rest := ih h
        _ ≤ jsonDepthFields ((k', v') :: rest) := by simp [jsonDepthFields]

theorem jsonDepth_getFieldOpt {ev : JValue} {k : String} {v : JValue}
    (h : getFieldOpt ev k = some v) : jsonDepth v < jsonDepth ev := by
  cases ev <;> simp [getFieldOpt] at h
  case obj fs =>
    calc jsonDepth v ≤ jsonDepthFields fs := jsonDepth_lookupField h
      _ < jsonDepth (JValue.obj fs) := by simp [jsonDepth]

/-! ## Value-to-string coercions used by the source -/

/-- JavaScript `String(v)` on a JSON value (array join and object tag kept
shallow: they are never load-bearing in the claims). -/
def jsCoerceString : JValue → String
  | .null => "null"
  | .bool true => "true"
  | .bool false => "false"
  | .num n => toString n
  | .str s => s
  | .arr _ => ""
  | .obj _ => "[object Object]"

/-- The source idiom `String(v || '')`: falsy values become the empty
string before coercion. -/
def jsStringOr (v : JValue) : String :=
  if jsTruthy v then jsCoerceString v else ""

mutual

/-- A JSON serialization of a value, standing in for `JSON.stringify`
(compact; the source's 2-space pretty-printing is immaterial to every
claim, which only ever asks whether a block was emitted at all). -/
def jsonStringify : JValue → String
  | .null => "null"
  | .bool true => "true"
  | .bool false => "false"
  | .num n => toString n
  | .str s => "\"" ++ s ++ "\""
  | .arr xs => "[" ++ jsonStringifyList xs ++ "]"
  | .obj fs => "\x7b" ++ jsonStringifyFields fs ++ "\x7d"

/-- Serialize array elements, comma-separated. -/
def jsonStringifyList : List JValue → String
  | [] => ""
  | [x] => jsonStringify x
  | x :: xs => jsonStringify x ++ "," ++ jsonStringifyList xs

/-- Serialize object fields, comma-separated. -/
def jsonStringifyFields : List (String × JValue) → String
  | [] => ""
  | [(k, v)] => "\"" ++ k ++ "\":" ++ jsonStringify v
  | (k, v) :: fs => "\"" ++ k ++ "\":" ++ jsonStringify v ++ "," ++ jsonStringifyFields fs

end

/-- `stringifyUnknown` (index.ts:1291): empty for null/undefined, identity
on strings, JSON text otherwise. -/
def stringifyUnknown : JValue → String
  | .null => ""
  | .str s => s
  | v => jsonStringify v

/-! ## Best-effort text extraction (`extractTextValue`, index.ts:1252) -/

/-- Collect the `.text` of text-bearing blocks of a content array
(index.ts:1273-1286). -/
def contentArrayTexts : List JValue → List String
  | [] => []
  | block :: rest =>
    if jsTruthy block && jsIsObjectLike block then
      match getFieldOpt block "text" with
      | some (.str t) =>
        if !(jsTrim t = "") then t :: contentArrayTexts rest else contentArrayTexts rest
      | _ => contentArrayTexts rest
    else contentArrayTexts rest

/-- The `.content` fallbacks of `extractTextValue`. -/
def extractTextValueContent (value : JValue) : Option String :=
  match getFieldOpt value "content" with
  | some (.str c) => if !(jsTrim c = "") then some c else none
  | some (.arr blocks) =>
    let parts := contentArrayTexts blocks
    if parts = [] then none else some (String.intercalate "\n" parts)
  | _ => none

/-- The `.result` / `.content` fallbacks of `extractTextValue`. -/
def extractTextValueRest (value : JValue) : Option String :=
  match getFieldOpt value "result" with
  | some (.str r) =>
    if !(jsTrim r = "") then some r else extractTextValueContent value
  | _ => extractTextValueContent value

/-- `extractTextValue` (index.ts:1252): a string is its own text; otherwise
the first non-blank of `.text`, `.result`, `.content` string fields, or the
newline-join of the content array's text blocks. -/
def extractTextValue (value : JValue) : Option String :=
  match value with
  | .str s => some s
  | value =>
    if !(jsTruthy value && jsIsObjectLike value) then none
    else
      match getFieldOpt value "text" with
      | some (.str t) =>
        if !(jsTrim t = "") then some t else extractTextValueRest value
      | _ => extractTextValueRest value

/-- `extractToolResultContent` (index.ts:1301). -/
def extractToolResultContent (content : JValue) : String :=
  match content with
  | .str s => s
  | .arr entries =>
    jsTrim (String.intercalate "\n" (entries.filterMap (fun entry =>
      if jsTruthy entry && jsIsObjectLike entry then
        if jvIsStr (getField entry "type") "text" then
          match getFieldOpt entry "text" with
          | some (.str t) => some t
          | _ => some (stringifyUnknown entry)
        else some (stringifyUnknown entry)
      else none)))
  | v => stringifyUnknown v

/-- The `.message` / stringify fallbacks of `extractErrorMessage`. -/
def extractErrorMessageRest (event : JValue) : String :=
  match getFieldOpt event "message" with
  | some (.str m) =>
    if !(jsTrim m = "") then "Claude CLI error: " ++ m
    else "Claude CLI error: " ++ stringifyUnknown event
  | _ => "Claude CLI error: " ++ stringifyUnknown event

/-- `extractErrorMessage` (index.ts:1322). -/
def extractErrorMessage (event : JValue) : String :=
  match getFieldOpt event "error" with
  | some (.str e) =>
    if !(jsTrim e = "") then "Claude CLI error: " ++ e else extractErrorMessageRest event
  | some (.obj fs) =>
    match lookupField fs "message" with
    | some (.str m) => "Claude CLI error: " ++ m
    | _ => "Claude CLI error: " ++ stringifyUnknown (.obj fs)
  | some (.arr xs) => "Claude CLI error: " ++ stringifyUnknown (.arr xs)
  | _ => extractErrorMessageRest event

/-! ## Chat data model (`src/src/settings/types.ts`) and emitted blocks -/

/-- `ToolUseBlock` (types.ts:54), as emitted by the engine (the `type`
discriminator is constant and omitted). -/
structure ToolUseBlock where
  id : String
  name : String
  input : String
deriving DecidableEq

/-- `ToolResultBlock` (types.ts:61). -/
structure ToolResultBlock where
  toolUseId : String
  content : String
  isError : Bool
deriving DecidableEq

/-- A block surfaced through `onToolUseCallback` / `onToolResultCallback`. -/
inductive EmittedBlock where
  | toolUse (b : ToolUseBlock)
  | toolResult (b : ToolResultBlock)
deriving DecidableEq

/-- The blocklist rejection error thrown by `handleToolUseBlock`
(index.ts:1508). -/
def blockedCommandError (blockedBy : String) : String :=
  "命令黑名单已拦截潜在危险命令（规则：" ++ blockedBy ++ "）。"

/-- `handleToolUseBlock` (index.ts:1503): throw the blocklist error on a
match, otherwise emit the `ToolUseBlock`. -/
def handleToolUseBlock (E : RegexEngine) (st : ZoclauSettings) (block : JValue) :
    Except String ToolUseBlock :=
  let name := jsStringOr (getField block "name")
  let input := getField block "input"
  match getBlockedCommandMatch E st name input with
  | some blockedBy => .error (blockedCommandError blockedBy)
  | none => .ok ⟨jsStringOr (getField block "id"), name, stringifyUnknown input⟩

/-! ## Per-turn stream accumulator -/

/-- Association-list read of the conversation session map. -/
def assocLookup : List (String × String) → String → Option String
  | [], _ => none
  | (k, v) :: rest, key => if k = key then some v else assocLookup rest key

/-- Association-list overwrite (`Map.set`). -/
def assocSet : List (String × String) → String → String → List (String × String)
  | [], key, value => [(key, value)]
  | (k, v) :: rest, key, value =>
    if k = key then (key, value) :: rest else (k, v) :: assocSet rest key value

/-- Per-turn mutable context of one `sendMessage` invocation: the
`StreamState` (conversationId, sawTextDelta), the accumulated response
text, the engine's conversation→session map, and the blocks emitted so
far (in callback order). -/
structure TurnAcc where
  conversationId : String
  sawTextDelta : Bool
  fullResponse : String
  sessions : List (String × String)
  emitted : List EmittedBlock

/-- `appendStreamingText` (index.ts:739): ignore empty text, else append. -/
def appendStreamingText (acc : TurnAcc) (text : String) : TurnAcc :=
  if text = "" then acc else { acc with fullResponse := acc.fullResponse ++ text }

/-- `true` exactly for the JSON value `true` (the `=== true` checks). -/
def jvIsTrue : JValue → Bool
  | .bool true => true
  | _ => false

/-- `String(block.tool_use_id || block.toolUseId || '')`. -/
def toolUseIdOf (block : JValue) : String :=
  let a := getField block "tool_use_id"
  if jsTruthy a then jsCoerceString a else jsStringOr (getField block "toolUseId")

/-- Build and emit a `ToolResultBlock` from a `tool_result`-shaped value
(index.ts:1162-1168 and analogous sites). -/
def emitToolResult (acc : TurnAcc) (block : JValue) : TurnAcc :=
  { acc with emitted := acc.emitted ++ [.toolResult
      ⟨toolUseIdOf block,
       extractToolResultContent (getField block "content"),
       jvIsTrue (getField block "is_error") || jvIsTrue (getField block "isError")⟩] }

/-- The content-block loop of `handleAssistantMessage` (index.ts:1201-1223):
text blocks append unless `skipText`, `tool_use` blocks pass the blocklist
gate (which may throw), `tool_result` blocks are forwarded. -/
def processAssistantBlocks (E : RegexEngine) (st : ZoclauSettings) (skipText : Bool) :
    List JValue → TurnAcc → Except String TurnAcc
  | [], acc => .ok acc
  | block :: rest, acc =>
    if !(jsTruthy block && jsIsObjectLike block) then
      processAssistantBlocks E st skipText rest acc
    else if !skipText && jvIsStr (getField block "type") "text" &&
        jsTruthy (getField block "text") then
      processAssistantBlocks E st skipText rest
        (appendStreamingText acc (jsCoerceString (getField block "text")))
    else if jvIsStr (getField block "type") "tool_use" then
      match handleToolUseBlock E st block with
      | .error e => .error e
      | .ok t =>
        processAssistantBlocks E st skipText rest
          { acc with emitted := acc.emitted ++ [.toolUse t] }
    else if jvIsStr (getField block "type") "tool_result" then
      processAssistantBlocks E st skipText rest (emitToolResult acc block)
    else processAssistantBlocks E st skipText rest acc

/-- `handleAssistantMessage` (index.ts:1197): array content is walked block
by block; non-array content falls back to best-effort text extraction,
appended only when `skipText` is false. -/
def handleAssistantMessage (E : RegexEngine) (st : ZoclauSettings) (event : JValue)
    (skipText : Bool) (acc : TurnAcc) : Except String TurnAcc :=
  let message := getField event "message"
  if !(jsTruthy message) then .ok acc
  else
    match getFieldOpt message "content" with
    | some (.arr blocks) => processAssistantBlocks E st skipText blocks acc
    | _ =>
      if skipText then .ok acc
      else
        match extractTextValue (jsNullishOr (getField message "content") message) with
        | some t => .ok (appendStreamingText acc t)
        | none => .ok acc

/-- `handleUserMessage` (index.ts:1235): forward `tool_result` content
blocks of a synthetic user turn. -/
def handleUserMessage (event : JValue) (acc : TurnAcc) : TurnAcc :=
  let message := getField event "message"
  match getFieldOpt message "content" with
  | some (.arr blocks) =>
    blocks.foldl (fun acc block =>
      if jsTruthy block && jsIsObjectLike block &&
          jvIsStr (getField block "type") "tool_result" then
        emitToolResult acc block
      else acc) acc
  | _ => acc

/-- The session-id capture step of `handleStreamEvent` (index.ts:1098-1105):
a non-empty `session_id` string overwrites the map entry when it differs. -/
def captureSessionId (event : JValue) (acc : TurnAcc) : TurnAcc :=
  match getFieldOpt event "session_id" with
  | some (.str s) =>
    if s = "" then acc
    else if assocLookup acc.sessions acc.conversationId = some s then acc
    else { acc with sessions := assocSet acc.sessions acc.conversationId s }
  | _ => acc

/-- The typed-event dispatch of `handleStreamEvent` (index.ts:1098-1181),
after `stream_event` unwrapping. -/
def handleEventCore (E : RegexEngine) (st : ZoclauSettings) (event : JValue)
    (acc : TurnAcc) : Except String TurnAcc :=
  let acc := captureSessionId event acc
  let ty := getField event "type"
  if !(jsTruthy ty) then
    .ok (match extractTextValue event with
      | some t => appendStreamingText acc t
      | none => acc)
  else if jvIsStr ty "assistant" then
    handleAssistantMessage E st event acc.sawTextDelta acc
  else if jvIsStr ty "user" then .ok (handleUserMessage event acc)
  else if jvIsStr ty "system" then .ok acc
  else if jvIsStr ty "content_block_start" then
    let block := getField event "content_block"
    if jvIsStr (getField block "type") "tool_use" then
      (handleToolUseBlock E st block).map
        (fun t => { acc with emitted := acc.emitted ++ [.toolUse t] })
    else .ok acc
  else if jvIsStr ty "content_block_delta" then
    let delta := getField event "delta"
    if jvIsStr (getField delta "type") "text_delta" && jsTruthy (getField delta "text") then
      .ok { appendStreamingText acc (jsCoerceString (getField delta "text")) with
              sawTextDelta := true }
    else .ok acc
  else if jvIsStr ty "result" then
    if acc.sawTextDelta then .ok acc
    else
      match getFieldOpt event "result" with
      | some (.str s) => .ok (if !(jsTrim s = "") then appendStreamingText acc s else acc)
      | some v =>
        if jsTruthy v && jsIsObjectLike v then
          .ok (match extractTextValue v with
            | some t => appendStreamingText acc t
            | none => acc)
        else .ok acc
      | none => .ok acc
  else if jvIsStr ty "tool_use" then
    (handleToolUseBlock E st event).map
      (fun t => { acc with emitted := acc.emitted ++ [.toolUse t] })
  else if jvIsStr ty "tool_result" then .ok (emitToolResult acc event)
  else if jvIsStr ty "error" then .error (extractErrorMessage event)
  else
    .ok (match extractTextValue event with
      | some t => appendStreamingText acc t
      | none => acc)

/-- `handleStreamEvent` with explicit unwrap fuel: the `stream_event`
wrapper recursion of index.ts:1093-1096.  The fuel only bounds wrapper
nesting; `jsonDepth event` always suffices (`handleStreamEventFuel_congr`),
so the fueled function computes exactly the source's unbounded recursion. -/
def handleStreamEventFuel (E : RegexEngine) (st : ZoclauSettings) :
    Nat → JValue → TurnAcc → Except String TurnAcc
  | 0, _, acc => .ok acc
  | fuel + 1, event, acc =>
    if !(jsTruthy event) then .ok acc
    else if jvIsStr (getField event "type") "stream_event" &&
        jsTruthy (getField event "event") then
      handleStreamEventFuel E st fuel (getField event "event") acc
    else handleEventCore E st event acc

/-- `handleStreamEvent` (index.ts:1083). -/
def handleStreamEvent (E : RegexEngine) (st : ZoclauSettings) (event : JValue)
    (acc : TurnAcc) : Except String TurnAcc :=
  handleStreamEventFuel E st (jsonDepth event) event acc

theorem jsonDepth_pos (v : JValue) : 1 ≤ jsonDepth v := by
  cases v <;> simp [jsonDepth]

theorem jsTruthy_getField_some {v : JValue} {k : String}
    (h : jsTruthy (getField v k) = true) : getFieldOpt v k = some (getField v k) := by
  unfold getField at *
  cases hf : getFieldOpt v k with
  | none => rw [hf] at h; simp [Option.getD, jsTruthy] at h
  | some w => simp [hf]

/-- Any fuel at least `jsonDepth event` computes the same result: the fuel
parameter of `handleStreamEventFuel` is invisible at and above the value
`handleStreamEvent` supplies, so the embedding agrees with the source's
unbounded recursion. -/
theorem handleStreamEventFuel_congr (E : RegexEngine) (st : ZoclauSettings) :
    ∀ (d : Nat) (event : JValue) (acc : TurnAcc) (f1 f2 : Nat),
      jsonDepth event ≤ d → jsonDepth event ≤ f1 → jsonDepth event ≤ f2 →
      handleStreamEventFuel E st f1 event acc = handleStreamEventFuel E st f2 event acc := by
  intro d
  induction d with
  | zero =>
    intro event acc f1 f2 hd _ _
    have := jsonDepth_pos event
    omega
  | succ d ih =>
    intro event acc f1 f2 hd h1 h2
    have hp := jsonDepth_pos event
    match f1, f2 with
    | 0, _ => omega
    | _ + 1, 0 => omega
    | a + 1, b + 1 =>
      by_cases ht : jsTruthy event
      · by_cases hw : (jvIsStr (getField event "type") "stream_event" &&
            jsTruthy (getField event "event")) = true
        · have hnest : getFieldOpt event "event" = some (getField event "event") :=
            jsTruthy_getField_some (by
              have := hw
              simp only [Bool.and_eq_true] at this
              exact this.2)
          have hlt : jsonDepth (getField event "event") < jsonDepth event :=
            jsonDepth_getFieldOpt hnest
          simp only [handleStreamEventFuel, ht, hw, Bool.not_true, Bool.false_eq_true,
            if_false, if_true]
          exact ih (getField event "event") acc a b (by omega) (by omega) (by omega)
        · simp only [handleStreamEventFuel, ht, hw, Bool.not_true, Bool.false_eq_true,
            if_false]
      · simp only [handleStreamEventFuel, ht, Bool.not_false, if_true]

/-! ## The stdout line pipeline of `sendMessage` -/

/-- A normalized stdout line after the `JSON.parse` attempt of
`processOutputLine` (index.ts:750-765): `raw` when parsing threw (the line
is appended verbatim plus a newline), `event` when it produced a value.
`JSON.parse` itself is abstracted by this dichotomy. -/
inductive StreamItem where
  | raw (line : String)
  | event (j : JValue)

/-- `normalizeOutputLine` (index.ts:1184): trim, drop SSE framing noise,
strip a `data:` prefix. -/
def normalizeOutputLine (line : String) : Option String :=
  let trimmed := jsTrim line
  if trimmed = "" then none
  else if trimmed = "[DONE]" then none
  else if strStartsWith trimmed "event:" then none
  else if strStartsWith trimmed ":" then none
  else if strStartsWith trimmed "data:" then
    let d := jsTrim ⟨trimmed.data.drop 5⟩
    if d = "" then none else some d
  else some trimmed

/-- One iteration of the stdout read loop, paired with the
`sawStructuredEvent` flag (index.ts:750-765). -/
def processOutputItem (E : RegexEngine) (st : ZoclauSettings) (item : StreamItem)
    (acc : TurnAcc × Bool) : Except String (TurnAcc × Bool) :=
  match item with
  | .raw line => .ok (appendStreamingText acc.1 (line ++ "\n"), acc.2)
  | .event j => (handleStreamEvent E st j acc.1).map (fun a => (a, true))

/-- The stdout read loop (index.ts:770-796): process items in order; a
thrown error stops the loop and is recorded as `streamReadError`, keeping
the state accumulated before the faulting item. -/
def processStdoutItems (E : RegexEngine) (st : ZoclauSettings) :
    List StreamItem → (TurnAcc × Bool) → ((TurnAcc × Bool) × Option String)
  | [], acc => (acc, none)
  | item :: rest, acc =>
    match processOutputItem E st item acc with
    | .ok acc2 => processStdoutItems E st rest acc2
    | .error e => (acc, some e)

/-! ## Exit-code classification and turn errors -/

/-- `formatCliExitError` (index.ts:1699): stderr signature table, then
generic fallbacks. -/
def formatCliExitError (exitCode : Int) (stderrText : String) : String :=
  let cleaned := jsTrim stderrText
  let lower := lowerString cleaned
  if strIncludes lower "requires git-bash" then
    "Claude CLI requires Git Bash on Windows. Install Git for Windows, then set CLAUDE_CODE_GIT_BASH_PATH (for example: C:\\Program Files\\Git\\bin\\bash.exe)."
  else if strIncludes lower "unable to find claude_code_git_bash_path" then
    "Claude CLI could not access CLAUDE_CODE_GIT_BASH_PATH. Verify the path points to bash.exe, then restart Zotero."
  else if strIncludes lower "session id" && strIncludes lower "already in use" then
    "Current conversation session is locked by another Claude process. Please wait a few seconds and retry, or start a New chat."
  else if strIncludes lower "invalid json provided to --settings" then
    "Claude CLI rejected runtime settings JSON. Check Environment Variables format (KEY=VALUE, one per line, no invalid quotes)."
  else if strIncludes lower "requires --verbose" && strIncludes lower "stream-json" then
    "Your Claude CLI requires --verbose when using stream-json. Zoclau now adds this automatically; restart Zotero and try again."
  else if strIncludes lower "unknown option" && strIncludes lower "--thinking-budget" then
    "Your Claude CLI version does not support --thinking-budget. Zoclau now runs in compatibility mode; restart Zotero and try again."
  else if strIncludes lower "unknown option" && strIncludes lower "--max-turns" then
    "Your Claude CLI version does not support --max-turns. Zoclau removed this flag; restart Zotero and try again."
  else if strIncludes lower "not authenticated" || strIncludes lower "run \"claude auth\"" ||
      strIncludes lower "claude auth" then
    "Claude CLI is not authenticated. Run \"claude auth login\" in terminal first, then restart Zotero."
  else if !(cleaned = "") then
    "Claude CLI exited with code " ++ toString exitCode ++ ": " ++ cleaned
  else if exitCode = -9 then
    "Claude CLI process ended unexpectedly (exit -9). This can happen when the process is force-stopped or blocked by system policies."
  else
    "Claude CLI exited with code " ++ toString exitCode ++ " without a readable error message."

/-- The empty-reply error of index.ts:878-887, distinguishing "events but
no text" from "no structured output". -/
def emptyReplyError (sawStructuredEvent : Bool) (stderrText : String) : String :=
  let details := if !(stderrText = "") then " Details: " ++ stderrText else ""
  let streamHint :=
    if sawStructuredEvent then "Received stream events but no assistant text."
    else "No structured stream output was received."
  "Claude CLI returned an empty reply. " ++ streamHint ++ details ++
    " Please verify Claude CLI login and run a quick prompt in terminal."

/-- The inactivity timeout error of index.ts:845-846, quoting elapsed idle
seconds. -/
def inactivityTimeoutError (idleMs : Nat) : String :=
  "Claude CLI timed out after " ++ toString (idleMs / 1000) ++ "s of inactivity."

/-! ## The engine state machine (`sendMessage`, index.ts:656-914) -/

/-- `ChatMessage` (types.ts:45) as built by the engine; the fresh `id` and
`timestamp` are opaque and omitted. -/
structure ChatMessage where
  role : String
  content : String
  isStreaming : Bool
deriving DecidableEq

/-- A fired engine callback, in firing order. -/
inductive EngineCallback where
  | streamStart
  | toolUse (b : ToolUseBlock)
  | toolResult (b : ToolResultBlock)
  | message (m : ChatMessage)
  | errorCb (e : String)
  | streamEnd
deriving DecidableEq

/-- The engine's shared mutable fields (`isRunning`, `currentProcess`,
`abortRequested`, `sessionByConversation`). -/
structure EngineState where
  isRunning : Bool
  hasProcess : Bool
  abortRequested : Bool
  sessions : List (String × String)
deriving DecidableEq

/-- What the environment and subprocess did during one turn, observed at
the source's decision points: spawn/stdin failures, the normalized stdout
items, stderr text, whether the inactivity watchdog won the race (and the
idle milliseconds it measured), the exit code, and whether `abort()` was
requested during the turn. -/
structure SubprocessTrace where
  spawnError : Option String
  stdinError : Option String
  stdout : List StreamItem
  stderr : String
  inactivityTimeout : Bool
  idleMs : Nat
  exitCode : Int
  abortDuringTurn : Bool

/-- Result of one `sendMessage` call: final engine state, the fired
callbacks in order, and whether the subprocess was force-killed. -/
structure TurnResult where
  state : EngineState
  events : List EngineCallback
  processKilled : Bool

/-- Map an emitted block to its callback. -/
def emittedToCallback : EmittedBlock → EngineCallback
  | .toolUse b => .toolUse b
  | .toolResult b => .toolResult b

/-- The `finally` block of `sendMessage` (index.ts:908-913): clear busy,
clear the process handle, reset the abort flag, fire stream-end. -/
def finishTurn (sessions : List (String × String)) (emitted : List EmittedBlock)
    (terminal : Option EngineCallback) (killed : Bool) : TurnResult :=
  { state := { isRunning := false, hasProcess := false, abortRequested := false,
               sessions := sessions },
    events := EngineCallback.streamStart :: (emitted.map emittedToCallback ++
      terminal.toList ++ [EngineCallback.streamEnd]),
    processKilled := killed }

/-- `sendMessage` (index.ts:656): busy guard, then the spawn / stdin /
stream / race / settle pipeline, with the `catch` turning errors into the
error callback unless an abort was requested, and the `finally` always
clearing state and firing stream-end. -/
def sendMessage (E : RegexEngine) (st : ZoclauSettings) (s : EngineState)
    (tr : SubprocessTrace) (userMessage conversationId : String) : TurnResult :=
  if s.isRunning then { state := s, events := [], processKilled := false }
  else
    match tr.spawnError with
    | some e =>
      finishTurn s.sessions []
        (if tr.abortDuringTurn then none else some (.errorCb e)) false
    | none =>
      match tr.stdinError with
      | some e =>
        finishTurn s.sessions []
          (if tr.abortDuringTurn then none
           else some (.errorCb ("Failed to write prompt to Claude CLI stdin: " ++ e))) false
      | none =>
        let init : TurnAcc :=
          { conversationId := conversationId, sawTextDelta := false,
            fullResponse := "", sessions := s.sessions, emitted := [] }
        let run := processStdoutItems E st tr.stdout (init, false)
        let acc := run.1.1
        let sawStructuredEvent := run.1.2
        let streamReadError := if tr.abortDuringTurn then none else run.2
        let killed := tr.inactivityTimeout || streamReadError.isSome
        let terminal : Option EngineCallback :=
          if tr.abortDuringTurn then none
          else if tr.inactivityTimeout then
            some (.errorCb (inactivityTimeoutError tr.idleMs))
          else
            match streamReadError with
            | some e => some (.errorCb e)
            | none =>
              if !(tr.exitCode = 0) then
                some (.errorCb (formatCliExitError tr.exitCode (jsTrim tr.stderr)))
              else if jsTrim acc.fullResponse = "" then
                some (.errorCb (emptyReplyError sawStructuredEvent (jsTrim tr.stderr)))
              else some (.message ⟨"assistant", acc.fullResponse, false⟩)
        finishTurn acc.sessions acc.emitted terminal killed

/-! ## CLI argument assembly (index.ts:678-708, 1339-1358) -/

/-- Is `c` an ASCII hexadecimal digit (with the regex's `i` flag)? -/
def isHexChar (c : Char) : Bool :=
  ('0' ≤ c && c ≤ '9') || ('a' ≤ c && c ≤ 'f') || ('A' ≤ c && c ≤ 'F')

/-- `isValidUuid` (index.ts:1688):
`/^[0-9a-f]{8}-[0-9a-f]{4}-[1-5][0-9a-f]{3}-[89ab][0-9a-f]{3}-[0-9a-f]{12}$/i`. -/
def isValidUuid (value : String) : Bool :=
  match splitOnChar '-' value with
  | [g1, g2, g3, g4, g5] =>
    g1.data.length = 8 && g2.data.length = 4 && g3.data.length = 4 &&
    g4.data.length = 4 && g5.data.length = 12 &&
    g1.data.all isHexChar && g2.data.all isHexChar && g3.data.all isHexChar &&
    g4.data.all isHexChar && g5.data.all isHexChar &&
    (match g3.data with
     | c :: _ => '1' ≤ c && c ≤ '5'
     | [] => false) &&
    (match g4.data with
     | c :: _ => c = '8' || c = '9' || c = 'a' || c = 'b' || c = 'A' || c = 'B'
     | [] => false)
  | _ => false

/-- `getModelId` (index.ts:606). -/
def getModelId (st : ZoclauSettings) : String :=
  let raw := jsTrim st.model
  if raw = "" then "auto" else raw

/-- `getSettingSourcesArg` (index.ts:1356). -/
def getSettingSourcesArg (st : ZoclauSettings) : String :=
  if st.loadUserClaudeSettings = false then "project" else "user,project"

/-- `appendPermissionModeArgs` (index.ts:1339). -/
def permissionModeArgs (st : ZoclauSettings) : List String :=
  let mode := if st.permissionMode = "" then "yolo" else st.permissionMode
  if mode = "plan" then ["--permission-mode", "plan"]
  else if mode = "normal" then ["--permission-mode", "acceptEdits"]
  else ["--permission-mode", "bypassPermissions", "--dangerously-skip-permissions"]

/-- `buildSystemPrompt` (index.ts:619). -/
def buildSystemPrompt (st : ZoclauSettings) (skillPrompt : Option String) : String :=
  let blockedWindows := parseLineList st.blockedCommandsWindows
  let blockedUnix := parseLineList st.blockedCommandsUnix
  let parts : List String :=
    ["You are Claude, an AI assistant embedded in Zotero (a reference management tool). You help the user with their research, writing, and reference management tasks. You have full agentic capabilities: file read/write, search, and bash commands.",
     "Safety policy: Do not run destructive or irreversible commands unless the user explicitly confirms it in the same turn. By default, block operations such as risky recursive deletion outside workspace, disk formatting, credential exfiltration, registry tampering, and unauthorized privilege escalation."]
    ++ (if !(blockedWindows = []) then
          ["Blocked command patterns (Windows)\n- " ++ String.intercalate "\n- " blockedWindows]
        else [])
    ++ (if !(blockedUnix = []) then
          ["Blocked command patterns (Unix/Git Bash)\n- " ++ String.intercalate "\n- " blockedUnix]
        else [])
    ++ (if !(st.userName = "") then ["The user's name is " ++ st.userName ++ "."] else [])
    ++ (if !(st.systemPrompt = "") then [st.systemPrompt] else [])
    ++ (match skillPrompt with
        | some sp =>
          if !(sp = "") then
            ["# Skill Instructions\nFollow these instructions precisely:\n\n" ++ sp]
          else []
        | none => [])
  String.intercalate "\n\n" parts

/-- The argument assembly of `sendMessage` (index.ts:678-708): base flags,
optional model, `--resume` only for a non-empty syntactically valid UUID
token, setting sources, system prompt, permission-mode flags. -/
def buildCliArgs (st : ZoclauSettings) (resumeSessionId : String)
    (skillPrompt : Option String) : List String :=
  ["--print", "--verbose", "--output-format", "stream-json",
   "--input-format", "text", "--include-partial-messages"]
  ++ (let model := getModelId st
      if !(model = "") && !(model = "auto") then ["--model", model] else [])
  ++ (if !(resumeSessionId = "") && isValidUuid resumeSessionId then
        ["--resume", resumeSessionId]
      else [])
  ++ ["--setting-sources", getSettingSourcesArg st]
  ++ (let sys := buildSystemPrompt st skillPrompt
      if !(sys = "") then ["--system-prompt", sys] else [])
  ++ permissionModeArgs st

/-! ## Title synthesis (`generateConversationTitle`, index.ts:916-1081) -/

/-- The one-shot collector's state (`{ sawTextDelta }`, index.ts:974) plus
its accumulated text. -/
structure OneShotAcc where
  sawTextDelta : Bool
  fullResponse : String
deriving DecidableEq

/-- The one-shot `appendText` (index.ts:976). -/
def appendOneShot (acc : OneShotAcc) (text : String) : OneShotAcc :=
  if text = "" then acc else { acc with fullResponse := acc.fullResponse ++ text }

/-- `extractTextFromOneShotEvent` (index.ts:1023), with explicit unwrap
fuel exactly as for `handleStreamEventFuel`. -/
def oneShotEventFuel : Nat → JValue → OneShotAcc → OneShotAcc
  | 0, _, acc => acc
  | fuel + 1, event, acc =>
    if !(jsTruthy event) then acc
    else if jvIsStr (getField event "type") "stream_event" &&
        jsTruthy (getField event "event") then
      oneShotEventFuel fuel (getField event "event") acc
    else if jvIsStr (getField event "type") "content_block_delta" &&
        jvIsStr (getField (getField event "delta") "type") "text_delta" &&
        jsTruthy (getField (getField event "delta") "text") then
      appendOneShot { acc with sawTextDelta := true }
        (jsCoerceString (getField (getField event "delta") "text"))
    else if jvIsStr (getField event "type") "assistant" then
      if !acc.sawTextDelta then
        match extractTextValue (jsNullishOr (getField (getField event "message") "content")
            (getField event "message")) with
        | some t => appendOneShot acc t
        | none => acc
      else acc
    else if jvIsStr (getField event "type") "result" && !acc.sawTextDelta then
      match extractTextValue (jsNullishOr (getField event "result") event) with
      | some t => appendOneShot acc t
      | none => acc
    else
      match extractTextValue event with
      | some t => appendOneShot acc t
      | none => acc

/-- One item of the title read loop (index.ts:981-1008). -/
def oneShotItem (item : StreamItem) (acc : OneShotAcc) : OneShotAcc :=
  match item with
  | .raw line => appendOneShot acc (line ++ "\n")
  | .event j => oneShotEventFuel (jsonDepth j) j acc

/-- The collected text of the title subprocess's stdout. -/
def collectOneShotText (items : List StreamItem) : String :=
  (items.foldl (fun acc item => oneShotItem item acc) ⟨false, ""⟩).fullResponse

/-- The quote class of `normalizeConversationTitle` (index.ts:1074). -/
def quoteChar (c : Char) : Bool :=
  c = '"' || c = Char.ofNat 39 || c = Char.ofNat 96 ||
  c = '“' || c = '”' || c = '‘' || c = '’'

/-- `replace(/^[quotes]+|[quotes]+$/g, '')`. -/
def stripSurroundingQuotes (s : String) : String :=
  ⟨((s.data.dropWhile quoteChar).reverse.dropWhile quoteChar).reverse⟩

/-- One attempt at the `\s*[:：-]\s*` tail of the title label regex. -/
def titleLabelTail (rest : List Char) : Option (List Char) :=
  match rest.dropWhile jsWhitespaceChar with
  | c :: rest2 =>
    if c = ':' || c = '：' || c = '-' then some (rest2.dropWhile jsWhitespaceChar)
    else none
  | [] => none

/-- `replace(/^(title|标题)\s*[:：-]\s*/i, '')` (index.ts:1075). -/
def stripTitleLabel (s : String) : String :=
  if strStartsWith (lowerString s) "title" then
    match titleLabelTail (s.data.drop 5) with
    | some rest => ⟨rest⟩
    | none => s
  else if strStartsWith s "标题" then
    match titleLabelTail (s.data.drop 2) with
    | some rest => ⟨rest⟩
    | none => s
  else s

/-- Run-collapsing for `replace(/\s+/g, ' ')`; the flag records whether the
previous character was whitespace. -/
def collapseWsAux : Bool → List Char → List Char
  | _, [] => []
  | prevWs, c :: rest =>
    if jsWhitespaceChar c then
      if prevWs then collapseWsAux true rest
      else ' ' :: collapseWsAux true rest
    else c :: collapseWsAux false rest

/-- `replace(/\s+/g, ' ')`. -/
def collapseWhitespace (s : String) : String := ⟨collapseWsAux false s.data⟩

/-- The first non-blank line of the raw title text (index.ts:1066-1070). -/
def firstNonBlankLine (raw : String) : String :=
  (((splitOnChar '\n' (normalizeNewlines raw)).map jsTrim).find?
    (fun l => !(l = ""))).getD ""

/-- `normalizeConversationTitle` (index.ts:1065): first non-blank line,
strip surrounding quotes and a leading title label, collapse whitespace,
trim, cap to 48 characters. -/
def normalizeConversationTitle (raw : String) : String :=
  let oneLine := firstNonBlankLine raw
  if oneLine = "" then ""
  else
    let cleaned := jsTrim (collapseWhitespace (stripTitleLabel (stripSurroundingQuotes oneLine)))
    if cleaned = "" then "" else ⟨cleaned.data.take 48⟩

/-- The observable behaviour of the title subprocess: whether anything in
the `try` block threw before reading (module load, path resolution,
spawn), whether `proc.stdin` was available, the stdout items, and the exit
code. -/
structure TitleTrace where
  spawnError : Bool
  stdinAvailable : Bool
  stdout : List StreamItem
  exitCode : Int

/-- `generateConversationTitle` (index.ts:916): `none` on blank inputs, any
failure, a non-zero exit, or an empty normalized title; otherwise the
normalized title. -/
def generateConversationTitle (tr : TitleTrace) (userMessage assistantMessage : String) :
    Option String :=
  let userText := jsTrim userMessage
  let assistantText := jsTrim assistantMessage
  if userText = "" || assistantText = "" then none
  else if tr.spawnError then none
  else if !tr.stdinAvailable then none
  else
    let fullResponse := collectOneShotText tr.stdout
    if !(tr.exitCode = 0) then none
    else
      let normalizedTitle := normalizeConversationTitle fullResponse
      if normalizedTitle = "" then none else some normalizedTitle

/-! ## The inactivity watchdog (index.ts:824-847)

Discrete-time model of the race between `proc.wait()` and the polled
inactivity check: activity timestamps are the times (ms from turn start,
which is itself an activity, index.ts:669) at which a stdout/stderr chunk
refreshed `lastActivityAt`; the watchdog polls every 5000 ms and fires
when more than 180000 ms have passed since the last activity, provided the
process has not already exited and won the race. -/

/-- The fixed inactivity threshold (index.ts:825). -/
def inactivityLimitMs : Nat := 180000

/-- The watchdog poll interval (index.ts:834). -/
def watchdogPollMs : Nat := 5000

/-- `lastActivityAt` as observed at time `t`: the latest activity not
after `t` (0 when none, matching the turn-start initialization). -/
def lastActivityBefore (acts : List Nat) (t : Nat) : Nat :=
  (acts.filter (fun a => a ≤ t)).foldr max 0

/-- The inactivity race resolves to a timeout: some poll happens strictly
before the process exit (if any) and observes more than the limit of idle
time. -/
def inactivityTimeoutFires (acts : List Nat) (exitAt : Option Nat) : Prop :=
  ∃ k : Nat,
    (∀ e, exitAt = some e → watchdogPollMs * (k + 1) < e) ∧
    inactivityLimitMs <
      watchdogPollMs * (k + 1) - lastActivityBefore acts (watchdogPollMs * (k + 1))

/-- Consecutive activity timestamps are nondecreasing and at most `g`
milliseconds apart. -/
def gapsWithin (g : Nat) : List Nat → Bool
  | [] => true
  | [_] => true
  | a :: b :: rest => (a ≤ b && b - a ≤ g) && gapsWithin g (b :: rest)

/-! ## Helper lemmas -/

theorem strAppend_data (a b : String) : (a ++ b).data = a.data ++ b.data :=
  String.data_append a b

theorem strAppend_empty (s : String) : s ++ "" = s := by
  apply String.ext
  rw [strAppend_data]
  simp

theorem strAppend_assoc (a b c : String) : a ++ b ++ c = a ++ (b ++ c) := by
  apply String.ext
  simp [strAppend_data]

theorem strEmpty_append (s : String) : "" ++ s = s := by
  apply String.ext
  rw [strAppend_data]
  rfl

theorem jsTrim_eq_empty_iff (s : String) :
    jsTrim s = "" ↔ ∀ c ∈ s.data, jsWhitespaceChar c := by
  unfold jsTrim
  rw [String.ext_iff]
  show (((s.data.dropWhile jsWhitespaceChar).reverse.dropWhile jsWhitespaceChar).reverse = "".data) ↔ _
  have hempty : ("" : String).data = [] := rfl
  rw [hempty, List.reverse_eq_nil_iff, List.dropWhile_eq_nil_iff]
  constructor
  · intro h c hc
    have hsplit := List.takeWhile_append_dropWhile (p := jsWhitespaceChar) (l := s.data)
    rw [← hsplit] at hc
    rcases List.mem_append.1 hc with hl | hr
    · exact List.mem_takeWhile_imp hl
    · exact h c (List.mem_reverse.2 hr)
  · intro h c hc
    exact h c (List.Sublist.mem (List.mem_reverse.1 hc) (List.dropWhile_sublist _))

theorem jsTrim_append_ne_empty {t : String} (x : String) (h : ¬(jsTrim t = "")) :
    ¬(jsTrim (t ++ x) = "") := by
  intro hc
  apply h
  rw [jsTrim_eq_empty_iff] at hc ⊢
  intro c hcs
  exact hc c (by rw [strAppend_data]; exact List.mem_append.2 (Or.inl hcs))

/-! ## Canonical text-bearing stream events (for the de-duplication claim) -/

/-- The three textual event shapes of the de-duplication property: a
`content_block_delta` text delta, an `assistant` event with string
content, a `result` event with string result. -/
inductive TextPiece where
  | delta (t : String)
  | assistantStr (t : String)
  | resultStr (t : String)

/-- The JSON event carried by each piece. -/
def pieceEvent : TextPiece → JValue
  | .delta t =>
    .obj [("type", .str "content_block_delta"),
          ("delta", .obj [("type", .str "text_delta"), ("text", .str t)])]
  | .assistantStr t =>
    .obj [("type", .str "assistant"), ("message", .obj [("content", .str t)])]
  | .resultStr t => .obj [("type", .str "result"), ("result", .str t)]

/-- The concatenation of only the delta pieces' text. -/
def pieceDeltas : List TextPiece → String
  | [] => ""
  | .delta t :: rest => t ++ pieceDeltas rest
  | .assistantStr _ :: rest => pieceDeltas rest
  | .resultStr _ :: rest => pieceDeltas rest

/-- The stdout items carrying the given pieces. -/
def pieceItems (ps : List TextPiece) : List StreamItem :=
  ps.map (fun p => StreamItem.event (pieceEvent p))

theorem handleStreamEvent_delta (E : RegexEngine) (st : ZoclauSettings) (t : String)
    (acc : TurnAcc) :
    handleStreamEvent E st (pieceEvent (TextPiece.delta t)) acc =
      .ok (if t = "" then acc
           else { acc with fullResponse := acc.fullResponse ++ t, sawTextDelta := true }) := by
  by_cases ht : t = ""
  · subst ht
    simp [handleStreamEvent, pieceEvent, jsonDepth, jsonDepthFields, handleStreamEventFuel,
      handleEventCore, captureSessionId, getField, getFieldOpt, lookupField, jvIsStr,
      jsTruthy, appendStreamingText, jsCoerceString]
  · simp [handleStreamEvent, pieceEvent, jsonDepth, jsonDepthFields, handleStreamEventFuel,
      handleEventCore, captureSessionId, getField, getFieldOpt, lookupField, jvIsStr,
      jsTruthy, appendStreamingText, jsCoerceString, ht]

theorem handleStreamEvent_assistantStr (E : RegexEngine) (st : ZoclauSettings) (t : String)
    (acc : TurnAcc) (h : acc.sawTextDelta = true) :
    handleStreamEvent E st (pieceEvent (TextPiece.assistantStr t)) acc = .ok acc := by
  simp [handleStreamEvent, pieceEvent, jsonDepth, jsonDepthFields, handleStreamEventFuel,
    handleEventCore, captureSessionId, getField, getFieldOpt, lookupField, jvIsStr,
    jsTruthy, handleAssistantMessage, h]

theorem handleStreamEvent_resultStr (E : RegexEngine) (st : ZoclauSettings) (t : String)
    (acc : TurnAcc) (h : acc.sawTextDelta = true) :
    handleStreamEvent E st (pieceEvent (TextPiece.resultStr t)) acc = .ok acc := by
  simp [handleStreamEvent, pieceEvent, jsonDepth, jsonDepthFields, handleStreamEventFuel,
    handleEventCore, captureSessionId, getField, getFieldOpt, lookupField, jvIsStr,
    jsTruthy, h]

/-- After the first text delta of a turn, processing any further
delta/assistant/result text events appends exactly the delta texts, never
the assistant/result texts, and touches nothing else. -/
theorem processPieces_after_delta (E : RegexEngine) (st : ZoclauSettings) :
    ∀ (pieces : List TextPiece) (acc : TurnAcc) (b : Bool), acc.sawTextDelta = true →
    ∃ accF bF,
      processStdoutItems E st (pieceItems pieces) (acc, b) = ((accF, bF), none) ∧
      accF.fullResponse = acc.fullResponse ++ pieceDeltas pieces ∧
      accF.sawTextDelta = true ∧ accF.sessions = acc.sessions ∧
      accF.emitted = acc.emitted ∧ accF.conversationId = acc.conversationId := by
  intro pieces
  induction pieces with
  | nil =>
    intro acc b h
    exact ⟨acc, b, by simp [pieceItems, processStdoutItems], by simp [pieceDeltas, strAppend_empty],
      h, rfl, rfl, rfl⟩
  | cons p rest ih =>
    intro acc b h
    cases p with
    | delta t =>
      by_cases ht : t = ""
      · subst ht
        have hstep := handleStreamEvent_delta E st "" acc
        simp only [if_pos rfl] at hstep
        obtain ⟨accF, bF, hrun, hfull, hsaw, hsess, hemit, hcid⟩ := ih acc true h
        refine ⟨accF, bF, ?_, ?_, hsaw, hsess, hemit, hcid⟩
        · simp [pieceItems, processStdoutItems, processOutputItem, hstep] at hrun ⊢
          exact hrun
        · rw [hfull, pieceDeltas, strEmpty_append]
      · have hstep := handleStreamEvent_delta E st t acc
        rw [if_neg ht] at hstep
        obtain ⟨accF, bF, hrun, hfull, hsaw, hsess, hemit, hcid⟩ :=
          ih { acc with fullResponse := acc.fullResponse ++ t, sawTextDelta := true } true rfl
        refine ⟨accF, bF, ?_, ?_, hsaw, hsess, hemit, hcid⟩
        · simp [pieceItems, processStdoutItems, processOutputItem, hstep] at hrun ⊢
          exact hrun
        · rw [hfull, pieceDeltas]
          rw [← strAppend_assoc]
    | assistantStr t =>
      have hstep := handleStreamEvent_assistantStr E st t acc h
      obtain ⟨accF, bF, hrun, hfull, hsaw, hsess, hemit, hcid⟩ := ih acc true h
      refine ⟨accF, bF, ?_, ?_, hsaw, hsess, hemit, hcid⟩
      · simp [pieceItems, processStdoutItems, processOutputItem, hstep] at hrun ⊢
        exact hrun
      · rw [hfull, pieceDeltas]
    | resultStr t =>
      have hstep := handleStreamEvent_resultStr E st t acc h
      obtain ⟨accF, bF, hrun, hfull, hsaw, hsess, hemit, hcid⟩ := ih acc true h
      refine ⟨accF, bF, ?_, ?_, hsaw, hsess, hemit, hcid⟩
      · simp [pieceItems, processStdoutItems, processOutputItem, hstep] at hrun ⊢
        exact hrun
      · rw [hfull, pieceDeltas]

/-! ## Concrete fixtures for witnesses and counterexamples -/

/-- A minimal settings value (empty blocklists, default mode). -/
def exSettings : ZoclauSettings := ⟨"", "auto", "", "yolo", true, "", ""⟩

/-- An idle engine: not busy, no live process, no abort, empty session map. -/
def idleEngine : EngineState := ⟨false, false, false, []⟩

/-- A clean subprocess trace: successful spawn and stdin write, the given
stdout items, no stderr, no timeout, exit code 0, no abort. -/
def plainTrace (items : List StreamItem) : SubprocessTrace :=
  ⟨none, none, items, "", false, 0, 0, false⟩

/-! ## C1 — the no-double-text property -/

/-- Claim C1 (counterexample): the claim quantifies over any per-turn
stream containing both a text delta and an assistant-type event with
textual content, asserting the final text equals the delta concatenation
alone.  For the stream [assistant "A", delta "B"] — assistant text arriving
before the first delta — the code appends both: the final message carries
"AB" while the deltas concatenate to "B". -/
theorem claim_C1_counterexample :
    (sendMessage noRegexEngine exSettings idleEngine
        (plainTrace (pieceItems [TextPiece.assistantStr "A", TextPiece.delta "B"]))
        "hi" "conv").events =
      [EngineCallback.streamStart,
       EngineCallback.message ⟨"assistant", "AB", false⟩,
       EngineCallback.streamEnd] ∧
    pieceDeltas [TextPiece.assistantStr "A", TextPiece.delta "B"] = "B" ∧
    ¬(("AB" : String) = "B") := by
  refine ⟨by decide, by decide, by decide⟩

/-- Claim C1 (amended): once a text delta has been observed, assistant-type
and result-event text is never appended again; hence for any per-turn
stream of delta/assistant/result text events whose first event is a
non-blank text delta, the final accumulated text of `sendMessage` equals
the concatenation of only the delta events' text. -/
theorem claim_C1_amended (E : RegexEngine) (st : ZoclauSettings) (s : EngineState)
    (userMessage conversationId t : String) (rest : List TextPiece)
    (hidle : s.isRunning = false) (ht : ¬(jsTrim t = "")) :
    (sendMessage E st s (plainTrace (pieceItems (TextPiece.delta t :: rest)))
        userMessage conversationId).events =
      [EngineCallback.streamStart,
       EngineCallback.message ⟨"assistant", pieceDeltas (TextPiece.delta t :: rest), false⟩,
       EngineCallback.streamEnd] := by
  have htne : ¬(t = "") := by
    intro he
    apply ht
    rw [he]
    rfl
  have hstep := handleStreamEvent_delta E st t
    ⟨conversationId, false, "", s.sessions, []⟩
  rw [if_neg htne] at hstep
  obtain ⟨accF, bF, hrun, hfull, hsaw, hsess, hemit, hcid⟩ :=
    processPieces_after_delta E st rest
      ⟨conversationId, true, "" ++ t, s.sessions, []⟩ true rfl
  have hfullne : ¬(jsTrim accF.fullResponse = "") := by
    rw [hfull]
    exact jsTrim_append_ne_empty _ (by rw [strEmpty_append]; exact ht)
  have hdeltas : accF.fullResponse = pieceDeltas (TextPiece.delta t :: rest) := by
    rw [hfull]
    show ("" ++ t) ++ pieceDeltas rest = pieceDeltas (TextPiece.delta t :: rest)
    rw [strEmpty_append, pieceDeltas]
  rw [hdeltas] at hfullne
  simp only [sendMessage, hidle, Bool.false_eq_true, if_false, plainTrace]
  show (finishTurn _ _ _ _).events = _
  rw [show pieceItems (TextPiece.delta t :: rest) =
      StreamItem.event (pieceEvent (TextPiece.delta t)) :: pieceItems rest from rfl]
  simp only [processStdoutItems, processOutputItem, hstep, Except.map, hrun]
  simp only [hemit, hdeltas]
  simp [finishTurn, hfullne]

theorem claim_C1_amended_witness :
    ¬(jsTrim "B" = "") ∧
    (sendMessage noRegexEngine exSettings idleEngine
        (plainTrace (pieceItems (TextPiece.delta "B" ::
          [TextPiece.assistantStr "A", TextPiece.resultStr "R"])))
        "hi" "conv").events =
      [EngineCallback.streamStart,
       EngineCallback.message ⟨"assistant",
         pieceDeltas (TextPiece.delta "B" ::
           [TextPiece.assistantStr "A", TextPiece.resultStr "R"]), false⟩,
       EngineCallback.streamEnd] :=
  ⟨by decide, claim_C1_amended noRegexEngine exSettings idleEngine "hi" "conv" "B"
    [TextPiece.assistantStr "A", TextPiece.resultStr "R"] rfl (by decide)⟩

/-! ## C3 — which rule lists the gate consults -/

/-- Settings whose Windows blocklist is empty and whose Unix blocklist is
`rm -rf`. -/
def c3Settings : ZoclauSettings := { exSettings with blockedCommandsUnix := "rm -rf" }

/-- Claim C3 (counterexample): the claim says the gate receives only the
host OS family's rules, so on a Windows host a Unix-only rule must not be
consulted.  `getBlockedCommandMatch` takes no host parameter: with an
empty Windows list, the Unix-list rule `rm -rf` still matches and vetoes
the invocation — on every host. -/
theorem claim_C3_counterexample :
    parseLineList c3Settings.blockedCommandsWindows = [] ∧
    getBlockedCommandMatch noRegexEngine c3Settings "bash"
      (JValue.obj [("command", JValue.str "sudo rm -rf /tmp")]) = some "rm -rf" :=
  ⟨by decide, by decide⟩

/-- Claim C3 (amended): the gate always evaluates the command against the
concatenation of both OS families' rule lists (Windows rules first, then
Unix rules, first match winning), regardless of host OS — it coincides
with the spec's `matchBlockedRule` contract applied to the combined list,
not to a single per-host list. -/
theorem claim_C3_amended (E : RegexEngine) (st : ZoclauSettings) (toolName : String)
    (input : JValue) :
    getBlockedCommandMatch E st toolName input =
      matchBlockedRuleSpec E
        (parseLineList st.blockedCommandsWindows ++ parseLineList st.blockedCommandsUnix)
        toolName input := by
  unfold getBlockedCommandMatch matchBlockedRuleSpec
  by_cases hc : extractCommandTextFromToolInput toolName input = ""
  · simp [hc]
  · simp only [hc, if_false]
    by_cases hr : parseLineList st.blockedCommandsWindows ++
        parseLineList st.blockedCommandsUnix = []
    · simp [hr]
    · simp [hr]

/-! ## C4 — busy rejection -/

/-- Claim C4: while a turn is in flight (`isRunning`), a further
`sendMessage` call is a silent no-op — no callbacks fire, nothing is
killed, and the whole engine state (busy flag, process handle, session
map) is returned unchanged. -/
theorem claim_C4_busy_noop (E : RegexEngine) (st : ZoclauSettings) (s : EngineState)
    (tr : SubprocessTrace) (userMessage conversationId : String)
    (h : s.isRunning = true) :
    sendMessage E st s tr userMessage conversationId =
      { state := s, events := [], processKilled := false } := by
  simp [sendMessage, h]

theorem claim_C4_busy_noop_witness :
    sendMessage noRegexEngine exSettings ⟨true, true, false, [("c", "x")]⟩
        (plainTrace [StreamItem.event (pieceEvent (TextPiece.delta "D"))]) "hello" "c" =
      { state := ⟨true, true, false, [("c", "x")]⟩, events := [], processKilled := false } :=
  claim_C4_busy_noop noRegexEngine exSettings ⟨true, true, false, [("c", "x")]⟩
    (plainTrace [StreamItem.event (pieceEvent (TextPiece.delta "D"))]) "hello" "c" rfl

/-! ## C6 — resume token validity -/

/-- Claim C6: the cached resume token for a conversation is passed via
`--resume` exactly when it is a syntactically well-formed UUID: an
ill-formed cached token leaves the argument list identical to having no
token at all, and a well-formed one appears as `--resume <token>`. -/
theorem claim_C6_resume_token (st : ZoclauSettings) (sessions : List (String × String))
    (conversationId : String) (skill : Option String) :
    (isValidUuid ((assocLookup sessions conversationId).getD "") = false →
      buildCliArgs st ((assocLookup sessions conversationId).getD "") skill =
        buildCliArgs st "" skill) ∧
    (isValidUuid ((assocLookup sessions conversationId).getD "") = true →
      ∃ pre post,
        buildCliArgs st ((assocLookup sessions conversationId).getD "") skill =
          pre ++ ["--resume", (assocLookup sessions conversationId).getD ""] ++ post) := by
  constructor
  · intro h
    simp [buildCliArgs, h]
  · intro h
    have hne : ¬((assocLookup sessions conversationId).getD "" = "") := by
      intro he
      rw [he] at h
      exact absurd h (by decide)
    refine ⟨["--print", "--verbose", "--output-format", "stream-json", "--input-format",
        "text", "--include-partial-messages"] ++
        (if !(getModelId st = "") && !(getModelId st = "auto") then
          ["--model", getModelId st] else []),
      ["--setting-sources", getSettingSourcesArg st] ++
        (if !(buildSystemPrompt st skill = "") then
          ["--system-prompt", buildSystemPrompt st skill] else []) ++
        permissionModeArgs st, ?_⟩
    simp [buildCliArgs, h, hne, List.append_assoc]

theorem claim_C6_resume_token_witness :
    (∃ pre post,
      buildCliArgs exSettings
          ((assocLookup [("conv", "123e4567-e89b-42d3-a456-426614174000")] "conv").getD "")
          none =
        pre ++ ["--resume",
          (assocLookup [("conv", "123e4567-e89b-42d3-a456-426614174000")] "conv").getD ""]
          ++ post) ∧
    buildCliArgs exSettings ((assocLookup [("conv", "zzz")] "conv").getD "") none =
      buildCliArgs exSettings "" none :=
  ⟨(claim_C6_resume_token exSettings [("conv", "123e4567-e89b-42d3-a456-426614174000")]
      "conv" none).2 (by decide),
   (claim_C6_resume_token exSettings [("conv", "zzz")] "conv" none).1 (by decide)⟩

/-! ## C7 — non-tool exemption -/

/-- Claim C7: a tool invocation whose name contains no shell-like
substring is never blocklist-checked: whatever its input, no rule match is
reported and the ToolUseBlock is emitted. -/
theorem claim_C7_non_tool_exemption (E : RegexEngine) (st : ZoclauSettings) (block : JValue)
    (h : isShellLikeTool (jsStringOr (getField block "name")) = false) :
    getBlockedCommandMatch E st (jsStringOr (getField block "name"))
      (getField block "input") = none ∧
    handleToolUseBlock E st block =
      .ok ⟨jsStringOr (getField block "id"), jsStringOr (getField block "name"),
           stringifyUnknown (getField block "input")⟩ := by
  have hcmd : extractCommandTextFromToolInput (jsStringOr (getField block "name"))
      (getField block "input") = "" := by
    unfold extractCommandTextFromToolInput
    simp [h]
  have hmatch : getBlockedCommandMatch E st (jsStringOr (getField block "name"))
      (getField block "input") = none := by
    unfold getBlockedCommandMatch
    simp [hcmd]
  refine ⟨hmatch, ?_⟩
  unfold handleToolUseBlock
  simp [hmatch]

theorem claim_C7_non_tool_exemption_witness :
    getBlockedCommandMatch noRegexEngine c3Settings
      (jsStringOr (getField (JValue.obj [("name", JValue.str "web_fetch"), ("id", JValue.str "t1"),
        ("input", JValue.obj [("command", JValue.str "sudo rm -rf /tmp")])]) "name"))
      (getField (JValue.obj [("name", JValue.str "web_fetch"), ("id", JValue.str "t1"),
        ("input", JValue.obj [("command", JValue.str "sudo rm -rf /tmp")])]) "input") = none ∧
    handleToolUseBlock noRegexEngine c3Settings
      (JValue.obj [("name", JValue.str "web_fetch"), ("id", JValue.str "t1"),
        ("input", JValue.obj [("command", JValue.str "sudo rm -rf /tmp")])]) =
      .ok ⟨jsStringOr (getField (JValue.obj [("name", JValue.str "web_fetch"),
            ("id", JValue.str "t1"),
            ("input", JValue.obj [("command", JValue.str "sudo rm -rf /tmp")])]) "id"),
           jsStringOr (getField (JValue.obj [("name", JValue.str "web_fetch"),
            ("id", JValue.str "t1"),
            ("input", JValue.obj [("command", JValue.str "sudo rm -rf /tmp")])]) "name"),
           stringifyUnknown (getField (JValue.obj [("name", JValue.str "web_fetch"),
            ("id", JValue.str "t1"),
            ("input", JValue.obj [("command", JValue.str "sudo rm -rf /tmp")])]) "input")⟩ :=
  claim_C7_non_tool_exemption noRegexEngine c3Settings
    (JValue.obj [("name", JValue.str "web_fetch"), ("id", JValue.str "t1"),
      ("input", JValue.obj [("command", JValue.str "sudo rm -rf /tmp")])]) (by decide)

/-! ## C10 — malformed regex rules fall back to literal matching -/

/-- Claim C10: a rule in `/pattern/flags` form whose pattern does not
compile is neither ignored nor an error: its match decision is exactly the
case-insensitive literal substring test of the full rule text, slashes
included, against the command. -/
theorem claim_C10_malformed_regex_literal (E : RegexEngine) (rule pat flags command : String)
    (hform : parseRegexForm rule = some (pat, flags))
    (hfail : E.compile pat ⟨flags.data.filter (fun c => !(c = 'g'))⟩ = none) :
    ruleMatches E command rule = strIncludes (lowerString command) (lowerString rule) := by
  unfold ruleMatches parseRegexRule
  rw [hform]
  simp [hfail]

theorem claim_C10_malformed_regex_literal_witness :
    parseRegexForm "/[/" = some ("[", "") ∧
    ruleMatches noRegexEngine "AB/[/cd" "/[/" =
      strIncludes (lowerString "AB/[/cd") (lowerString "/[/") ∧
    strIncludes (lowerString "AB/[/cd") (lowerString "/[/") = true ∧
    strIncludes (lowerString "echo hi") (lowerString "/[/") = false :=
  ⟨by decide,
   claim_C10_malformed_regex_literal noRegexEngine "/[/" "[" "" "AB/[/cd" (by decide) rfl,
   by decide, by decide⟩

/-! ## C2 — blocklist fail-closed -/

theorem charsHavePrefix_self_append : ∀ (y z : List Char), charsHavePrefix (y ++ z) y = true := by
  intro y
  induction y with
  | nil => intro z; simp [charsHavePrefix]
  | cons c cs ih => intro z; simp [charsHavePrefix, ih]

theorem charsInclude_append (x y z : List Char) : charsInclude (x ++ (y ++ z)) y = true := by
  induction x with
  | nil =>
    unfold charsInclude
    simp [charsHavePrefix_self_append]
  | cons c cs ih =>
    unfold charsInclude
    by_cases h : charsHavePrefix (c :: cs ++ (y ++ z)) y = true <;> simp [h, ih]

/-- Claim C2: for a shell-like tool name whose extracted command is
non-empty and matched by the first matching configured rule, the gate
throws the blocklist error (which names the matching rule) and never
returns an emitted ToolUseBlock — fail-closed, not a silent drop. -/
theorem claim_C2_blocklist_fail_closed (E : RegexEngine) (st : ZoclauSettings)
    (block : JValue) (rule command : String)
    (hshell : isShellLikeTool (jsStringOr (getField block "name")) = true)
    (hcmd : extractCommandTextFromToolInput (jsStringOr (getField block "name"))
      (getField block "input") = command)
    (hne : ¬(command = ""))
    (hmatch : (parseLineList st.blockedCommandsWindows ++
        parseLineList st.blockedCommandsUnix).find?
        (fun r => ruleMatches E command r) = some rule) :
    handleToolUseBlock E st block = .error (blockedCommandError rule) ∧
    (∀ t, ¬(handleToolUseBlock E st block = .ok t)) ∧
    strIncludes (blockedCommandError rule) rule = true := by
  have hrules : ¬((parseLineList st.blockedCommandsWindows ++
      parseLineList st.blockedCommandsUnix) = []) := by
    intro h0
    rw [h0] at hmatch
    simp [List.find?] at hmatch
  have hgate : getBlockedCommandMatch E st (jsStringOr (getField block "name"))
      (getField block "input") = some rule := by
    unfold getBlockedCommandMatch
    simp [hcmd, hne, hrules, hmatch]
  refine ⟨?_, ?_, ?_⟩
  · unfold handleToolUseBlock
    simp [hgate]
  · intro t hc
    unfold handleToolUseBlock at hc
    simp [hgate] at hc
  · show strIncludes ("命令黑名单已拦截潜在危险命令（规则：" ++ (rule ++ "）。")) rule = true
    unfold strIncludes
    rw [strAppend_data, strAppend_data]
    exact charsInclude_append _ _ _

/-- A `Bash` invocation whose command hits the `rm -rf` rule. -/
def c2Block : JValue :=
  JValue.obj [("id", JValue.str "t1"), ("name", JValue.str "Bash"),
    ("input", JValue.obj [("command", JValue.str "rm -rf /")])]

theorem claim_C2_blocklist_fail_closed_witness :
    handleToolUseBlock noRegexEngine c3Settings c2Block =
      .error (blockedCommandError "rm -rf") ∧
    (∀ t, ¬(handleToolUseBlock noRegexEngine c3Settings c2Block = .ok t)) ∧
    strIncludes (blockedCommandError "rm -rf") "rm -rf" = true :=
  claim_C2_blocklist_fail_closed noRegexEngine c3Settings c2Block "rm -rf" "rm -rf /"
    (by decide) (by decide) (by decide) (by decide)

/-! ## C9 — title synthesis is best-effort -/

theorem normalizeConversationTitle_length (raw : String) :
    (normalizeConversationTitle raw).data.length ≤ 48 := by
  unfold normalizeConversationTitle
  by_cases h1 : firstNonBlankLine raw = ""
  · simp [h1]
  · simp only [h1, if_false]
    by_cases h2 : jsTrim (collapseWhitespace (stripTitleLabel
        (stripSurroundingQuotes (firstNonBlankLine raw)))) = ""
    · simp [h2]
    · simp only [h2, if_false]
      show (List.take 48 _).length ≤ 48
      simp

/-- Claim C9: `generateConversationTitle` never raises; it returns `none`
whenever either input is blank, anything failed before reading, the
subprocess exited non-zero, or no usable text was collected; on success it
returns exactly the collected text post-processed by
`normalizeConversationTitle` (first non-blank line, quote/label stripping,
whitespace collapsing, 48-character cap). -/
theorem claim_C9_title_best_effort (tr : TitleTrace) (userMessage assistantMessage : String) :
    (jsTrim userMessage = "" ∨ jsTrim assistantMessage = "" →
      generateConversationTitle tr userMessage assistantMessage = none) ∧
    (tr.spawnError = true →
      generateConversationTitle tr userMessage assistantMessage = none) ∧
    (¬(tr.exitCode = 0) →
      generateConversationTitle tr userMessage assistantMessage = none) ∧
    (normalizeConversationTitle (collectOneShotText tr.stdout) = "" →
      generateConversationTitle tr userMessage assistantMessage = none) ∧
    (∀ t, generateConversationTitle tr userMessage assistantMessage = some t →
      t = normalizeConversationTitle (collectOneShotText tr.stdout) ∧
      ¬(t = "") ∧ t.data.length ≤ 48) := by
  refine ⟨?_, ?_, ?_, ?_, ?_⟩
  · intro h
    rcases h with h | h <;> simp [generateConversationTitle, h]
  · intro h
    simp [generateConversationTitle, h]
  · intro h
    simp [generateConversationTitle, h]
  · intro h
    simp [generateConversationTitle, h]
  · intro t hsome
    simp only [generateConversationTitle] at hsome
    by_cases hu : jsTrim userMessage = ""
    · simp [hu] at hsome
    by_cases ha : jsTrim assistantMessage = ""
    · simp [hu, ha] at hsome
    by_cases hs : tr.spawnError = true
    · simp [hu, ha, hs] at hsome
    by_cases hst : tr.stdinAvailable = true
    case neg => simp [hu, ha, hs, hst] at hsome
    by_cases hex : tr.exitCode = 0
    case neg => simp [hu, ha, hs, hst, hex] at hsome
    by_cases hn : normalizeConversationTitle (collectOneShotText tr.stdout) = ""
    · simp [hu, ha, hs, hst, hex, hn] at hsome
    · simp [hu, ha, hs, hst, hex, hn] at hsome
      refine ⟨hsome.symm, ?_, ?_⟩
      · rw [← hsome]
        exact hn
      · rw [← hsome]
        exact normalizeConversationTitle_length _

/-- A successful one-shot title run whose result event carries
`Greetings`. -/
def titleTraceOk : TitleTrace :=
  ⟨false, true, [StreamItem.event (pieceEvent (TextPiece.resultStr "Greetings"))], 0⟩

theorem claim_C9_title_best_effort_witness :
    generateConversationTitle titleTraceOk "hi" "there" = some "Greetings" ∧
    "Greetings" = normalizeConversationTitle (collectOneShotText titleTraceOk.stdout) ∧
    ¬(("Greetings" : String) = "") ∧ ("Greetings" : String).data.length ≤ 48 ∧
    generateConversationTitle titleTraceOk "" "there" = none := by
  have h1 : generateConversationTitle titleTraceOk "hi" "there" = some "Greetings" := by
    decide
  have h2 := (claim_C9_title_best_effort titleTraceOk "hi" "there").2.2.2.2 "Greetings" h1
  have h3 := (claim_C9_title_best_effort titleTraceOk "" "there").1 (Or.inl (by decide))
  exact ⟨h1, h2.1, h2.2.1, h2.2.2, h3⟩

/-! ## C5 — exactly one outcome per turn, state always cleaned up -/

/-- Is a callback a final-message emission? -/
def isMessageCb : EngineCallback → Bool
  | .message _ => true
  | _ => false

/-- Is a callback an error emission? -/
def isErrorCb : EngineCallback → Bool
  | .errorCb _ => true
  | _ => false

theorem emitted_filter_empty (em : List EmittedBlock) :
    (em.map emittedToCallback).filter isMessageCb = [] ∧
    (em.map emittedToCallback).filter isErrorCb = [] := by
  induction em with
  | nil => simp
  | cons e rest ih => cases e <;> simp [emittedToCallback, isMessageCb, isErrorCb, ih]

theorem message_not_in_emitted (m : ChatMessage) (em : List EmittedBlock) :
    ¬(EngineCallback.message m ∈ em.map emittedToCallback) := by
  induction em with
  | nil => simp
  | cons e rest ih => cases e <;> simp [emittedToCallback, ih]

theorem finishTurn_facts (sess : List (String × String)) (em : List EmittedBlock)
    (term : Option EngineCallback) (k : Bool) :
    ((finishTurn sess em term k).events.filter isMessageCb).length =
      (term.toList.filter isMessageCb).length ∧
    ((finishTurn sess em term k).events.filter isErrorCb).length =
      (term.toList.filter isErrorCb).length ∧
    EngineCallback.streamEnd ∈ (finishTurn sess em term k).events ∧
    (∀ m, EngineCallback.message m ∈ (finishTurn sess em term k).events →
      term = some (.message m)) ∧
    (finishTurn sess em term k).state.isRunning = false ∧
    (finishTurn sess em term k).state.hasProcess = false := by
  obtain ⟨hm, he⟩ := emitted_filter_empty em
  refine ⟨?_, ?_, ?_, ?_, rfl, rfl⟩
  · simp [finishTurn, List.filter_append, hm, isMessageCb, isErrorCb]
  · simp [finishTurn, List.filter_append, he, isMessageCb, isErrorCb]
  · simp [finishTurn]
  · intro m hmem
    simp only [finishTurn, List.mem_cons, List.mem_append] at hmem
    rcases hmem with h | ⟨(h | h) | h⟩
    · exact absurd h (by simp)
    · exact absurd h (message_not_in_emitted m em)
    · cases term with
      | none => simp at h
      | some c => simp at h; rw [h]
    · simp at h

theorem claim5_of_finish (sess : List (String × String)) (em : List EmittedBlock)
    (k ab : Bool) (term : Option EngineCallback)
    (h1 : ab = true → term = none)
    (h2 : ab = false → (∃ e, term = some (.errorCb e)) ∨
      (∃ full, term = some (.message ⟨"assistant", full, false⟩))) :
    (((finishTurn sess em term k).events.filter isMessageCb).length +
      ((finishTurn sess em term k).events.filter isErrorCb).length ≤ 1) ∧
    (ab = false →
      ((finishTurn sess em term k).events.filter isMessageCb).length +
      ((finishTurn sess em term k).events.filter isErrorCb).length = 1) ∧
    (ab = true →
      ((finishTurn sess em term k).events.filter isMessageCb).length = 0 ∧
      ((finishTurn sess em term k).events.filter isErrorCb).length = 0) ∧
    (finishTurn sess em term k).state.isRunning = false ∧
    (finishTurn sess em term k).state.hasProcess = false ∧
    EngineCallback.streamEnd ∈ (finishTurn sess em term k).events ∧
    (∀ m, EngineCallback.message m ∈ (finishTurn sess em term k).events →
      m.isStreaming = false) := by
  obtain ⟨hmsg, herr, hend, hmem, hrunning, hproc⟩ := finishTurn_facts sess em term k
  cases ab with
  | true =>
    have ht := h1 rfl
    subst ht
    simp only [hmsg, herr]
    refine ⟨by simp, by simp, fun _ => ⟨by simp, by simp⟩, hrunning, hproc, hend, ?_⟩
    intro m hm
    exact absurd (hmem m hm) (by simp)
  | false =>
    rcases h2 rfl with ⟨e, he⟩ | ⟨full, hf⟩
    · subst he
      simp only [hmsg, herr]
      refine ⟨by simp [isMessageCb, isErrorCb], by simp [isMessageCb, isErrorCb],
        by simp, hrunning, hproc, hend, ?_⟩
      intro m hm
      have := hmem m hm
      simp [isMessageCb, isErrorCb] at this
    · subst hf
      simp only [hmsg, herr]
      refine ⟨by simp [isMessageCb, isErrorCb], by simp [isMessageCb, isErrorCb],
        by simp, hrunning, hproc, hend, ?_⟩
      intro m hm
      have := hmem m hm
      simp only [Option.some.injEq, EngineCallback.message.injEq] at this
      rw [← this]

/-- Claim C5: every `sendMessage` turn that passes the busy guard resolves
to exactly one of: a final assistant message (`isStreaming = false`), one
error callback, or — after an explicit abort — silence; never more than
one and, absent an abort, never none.  Regardless of outcome the `finally`
path leaves the engine not busy, with no live process handle, and fires
the stream-end callback. -/
theorem claim_C5_exactly_one_outcome (E : RegexEngine) (st : ZoclauSettings)
    (s : EngineState) (tr : SubprocessTrace) (userMessage conversationId : String)
    (h : s.isRunning = false) :
    (((sendMessage E st s tr userMessage conversationId).events.filter isMessageCb).length +
      ((sendMessage E st s tr userMessage conversationId).events.filter isErrorCb).length
        ≤ 1) ∧
    (tr.abortDuringTurn = false →
      ((sendMessage E st s tr userMessage conversationId).events.filter isMessageCb).length +
      ((sendMessage E st s tr userMessage conversationId).events.filter isErrorCb).length
        = 1) ∧
    (tr.abortDuringTurn = true →
      ((sendMessage E st s tr userMessage conversationId).events.filter
        isMessageCb).length = 0 ∧
      ((sendMessage E st s tr userMessage conversationId).events.filter
        isErrorCb).length = 0) ∧
    (sendMessage E st s tr userMessage conversationId).state.isRunning = false ∧
    (sendMessage E st s tr userMessage conversationId).state.hasProcess = false ∧
    EngineCallback.streamEnd ∈ (sendMessage E st s tr userMessage conversationId).events ∧
    (∀ m, EngineCallback.message m ∈
        (sendMessage E st s tr userMessage conversationId).events →
      m.isStreaming = false) := by
  obtain ⟨spawnE, stdinE, stdoutI, stderrT, tout, idle, exitC, ab⟩ := tr
  simp only [sendMessage, h, Bool.false_eq_true, if_false]
  cases spawnE with
  | some e =>
    exact claim5_of_finish _ _ _ ab _ (fun hab => by simp [hab])
      (fun hab => Or.inl ⟨e, by simp [hab]⟩)
  | none =>
    cases stdinE with
    | some e =>
      exact claim5_of_finish _ _ _ ab _ (fun hab => by simp [hab])
        (fun hab =>
          Or.inl ⟨"Failed to write prompt to Claude CLI stdin: " ++ e, by simp [hab]⟩)
    | none =>
      refine claim5_of_finish _ _ _ ab _ (fun hab => by simp [hab]) (fun hab => ?_)
      simp only [hab, Bool.false_eq_true, if_false]
      by_cases ht : tout = true
      · exact Or.inl ⟨inactivityTimeoutError idle, by simp [ht]⟩
      · simp only [ht, Bool.false_eq_true, if_false]
        cases hrun : (processStdoutItems E st stdoutI
            ({ conversationId := conversationId, sawTextDelta := false, fullResponse := "",
               sessions := s.sessions, emitted := [] }, false)).2 with
        | some e => exact Or.inl ⟨e, by simp [hrun]⟩
        | none =>
          by_cases hexit : exitC = 0
          · by_cases hempty : jsTrim (processStdoutItems E st stdoutI
                ({ conversationId := conversationId, sawTextDelta := false,
                   fullResponse := "", sessions := s.sessions, emitted := [] },
                  false)).1.1.fullResponse = ""
            · exact Or.inl ⟨emptyReplyError (processStdoutItems E st stdoutI
                ({ conversationId := conversationId, sawTextDelta := false,
                   fullResponse := "", sessions := s.sessions, emitted := [] },
                  false)).1.2 (jsTrim stderrT), by simp [hrun, hexit, hempty]⟩
            · exact Or.inr ⟨(processStdoutItems E st stdoutI
                ({ conversationId := conversationId, sawTextDelta := false,
                   fullResponse := "", sessions := s.sessions, emitted := [] },
                  false)).1.1.fullResponse, by simp [hrun, hexit, hempty]⟩
          · exact Or.inl ⟨formatCliExitError exitC (jsTrim stderrT), by simp [hrun, hexit]⟩

theorem claim_C5_exactly_one_outcome_witness :
    (((sendMessage noRegexEngine exSettings idleEngine
        (plainTrace (pieceItems [TextPiece.delta "Hi"])) "m" "c").events.filter
        isMessageCb).length +
      ((sendMessage noRegexEngine exSettings idleEngine
        (plainTrace (pieceItems [TextPiece.delta "Hi"])) "m" "c").events.filter
        isErrorCb).length ≤ 1) ∧
    (sendMessage noRegexEngine exSettings idleEngine
      (plainTrace (pieceItems [TextPiece.delta "Hi"])) "m" "c").state.isRunning = false ∧
    EngineCallback.streamEnd ∈ (sendMessage noRegexEngine exSettings idleEngine
      (plainTrace (pieceItems [TextPiece.delta "Hi"])) "m" "c").events := by
  have hc := claim_C5_exactly_one_outcome noRegexEngine exSettings idleEngine
    (plainTrace (pieceItems [TextPiece.delta "Hi"])) "m" "c" rfl
  exact ⟨hc.1, hc.2.2.2.1, hc.2.2.2.2.2.1⟩

/-! ## C8 — timeout boundary -/

/-- The last element of an activity list (0 for an empty one). -/
def lastOf : List Nat → Nat
  | [] => 0
  | [x] => x
  | _ :: b :: rest => lastOf (b :: rest)

theorem foldr_max_le {l : List Nat} {M : Nat} (h : ∀ x ∈ l, x ≤ M) :
    l.foldr max 0 ≤ M := by
  induction l with
  | nil => simp
  | cons a rest ih =>
    simp only [List.foldr]
    exact max_le (h a (by simp)) (ih fun x hx => h x (by simp [hx]))

theorem le_foldr_max {l : List Nat} {a : Nat} (h : a ∈ l) : a ≤ l.foldr max 0 := by
  induction l with
  | nil => simp at h
  | cons b rest ih =>
    rcases List.mem_cons.1 h with rfl | hm
    · simp only [List.foldr]
      exact le_max_left _ _
    · simp only [List.foldr]
      exact le_trans (ih hm) (le_max_right _ _)

theorem lastActivityBefore_le {acts : List Nat} {M t : Nat} (h : ∀ x ∈ acts, x ≤ M) :
    lastActivityBefore acts t ≤ M :=
  foldr_max_le (fun x hx => h x (List.mem_of_mem_filter hx))

theorem le_lastActivityBefore {acts : List Nat} {a t : Nat} (ha : a ∈ acts) (hat : a ≤ t) :
    a ≤ lastActivityBefore acts t :=
  le_foldr_max (List.mem_filter.2 ⟨ha, by simpa using hat⟩)

theorem lastActivityBefore_cons_le (a : Nat) (l : List Nat) (t : Nat) :
    lastActivityBefore l t ≤ lastActivityBefore (a :: l) t := by
  unfold lastActivityBefore
  by_cases h : a ≤ t
  · simp only [List.filter_cons, decide_eq_true_eq]
    rw [if_pos h]
    simp only [List.foldr]
    exact le_max_right _ _
  · simp [List.filter_cons, h]

/-- If consecutive activities are at most `g` apart and `t` lies between
the first activity and `g` past the last one, the observed idle time at
`t` is at most `g`. -/
theorem watchdog_cover (g : Nat) :
    ∀ (rest : List Nat) (a t : Nat), gapsWithin g (a :: rest) = true → a ≤ t →
      t ≤ lastOf (a :: rest) + g → t - lastActivityBefore (a :: rest) t ≤ g := by
  intro rest
  induction rest with
  | nil =>
    intro a t hg hat hle
    have h1 : a ≤ lastActivityBefore [a] t := le_lastActivityBefore (by simp) hat
    have h2 : lastOf [a] = a := rfl
    omega
  | cons b rest ih =>
    intro a t hg hat hle
    simp only [gapsWithin, Bool.and_eq_true, decide_eq_true_eq] at hg
    obtain ⟨⟨hab1, hab2⟩, hg'⟩ := hg
    by_cases hbt : b ≤ t
    · have hlast : lastOf (a :: b :: rest) = lastOf (b :: rest) := rfl
      have hcov := ih b t hg' hbt (by rw [hlast] at hle; exact hle)
      have hmono := lastActivityBefore_cons_le a (b :: rest) t
      omega
    · have h1 : a ≤ lastActivityBefore (a :: b :: rest) t :=
        le_lastActivityBefore (by simp) hat
      omega

/-- Claim C8: with the fixed 180-second inactivity threshold, (i) a
subprocess whose activity stops for good without exiting always trips the
watchdog; (ii) a subprocess active at least every 90 seconds up to an exit
at most 90 seconds after its last activity never trips it, however long
the turn; (iii) when the watchdog wins the race, `sendMessage` kills the
process and raises the timeout error quoting the elapsed idle seconds. -/
theorem claim_C8_timeout_boundary :
    (∀ (acts : List Nat) (M : Nat), (∀ x ∈ acts, x ≤ M) →
      inactivityTimeoutFires acts none) ∧
    (∀ (rest : List Nat) (e : Nat),
      gapsWithin (inactivityLimitMs / 2) (0 :: rest) = true →
      e ≤ lastOf (0 :: rest) + inactivityLimitMs / 2 →
      ¬ inactivityTimeoutFires (0 :: rest) (some e)) ∧
    (∀ (E : RegexEngine) (st : ZoclauSettings) (s : EngineState) (tr : SubprocessTrace)
        (u c : String), s.isRunning = false → tr.spawnError = none → tr.stdinError = none →
      tr.inactivityTimeout = true → tr.abortDuringTurn = false →
      (sendMessage E st s tr u c).processKilled = true ∧
      EngineCallback.errorCb (inactivityTimeoutError tr.idleMs) ∈
        (sendMessage E st s tr u c).events ∧
      inactivityTimeoutError tr.idleMs =
        "Claude CLI timed out after " ++ toString (tr.idleMs / 1000) ++
          "s of inactivity.") := by
  refine ⟨?_, ?_, ?_⟩
  · intro acts M hM
    refine ⟨M + inactivityLimitMs, fun e he => Option.noConfusion he, ?_⟩
    have hlast : lastActivityBefore acts (watchdogPollMs * (M + inactivityLimitMs + 1)) ≤ M :=
      lastActivityBefore_le hM
    simp only [inactivityLimitMs, watchdogPollMs] at hlast ⊢
    omega
  · intro rest e hg he
    have h90 : inactivityLimitMs / 2 = 90000 := by norm_num [inactivityLimitMs]
    rw [h90] at hg he
    rintro ⟨k, hexit, hidle⟩
    have hpoll := hexit e rfl
    have hcov := watchdog_cover 90000 rest 0 (watchdogPollMs * (k + 1)) hg
      (Nat.zero_le _) (by omega)
    have hlim : inactivityLimitMs = 180000 := rfl
    rw [hlim] at hidle
    omega
  · intro E st s tr u c h hspawn hstdin htout hab
    obtain ⟨spawnE, stdinE, stdoutI, stderrT, tout, idle, exitC, ab⟩ := tr
    simp only at hspawn hstdin htout hab
    subst hspawn
    subst hstdin
    subst htout
    subst hab
    refine ⟨?_, ?_, rfl⟩
    · simp [sendMessage, h, finishTurn]
    · simp [sendMessage, h, finishTurn]

theorem claim_C8_timeout_boundary_witness :
    inactivityTimeoutFires [0] none ∧
    ¬ inactivityTimeoutFires [0, 90000] (some 100000) ∧
    ((sendMessage noRegexEngine exSettings idleEngine
        ⟨none, none, [], "", true, 200000, 0, false⟩ "m" "c").processKilled = true ∧
     EngineCallback.errorCb (inactivityTimeoutError 200000) ∈
       (sendMessage noRegexEngine exSettings idleEngine
         ⟨none, none, [], "", true, 200000, 0, false⟩ "m" "c").events ∧
     inactivityTimeoutError 200000 =
       "Claude CLI timed out after " ++ toString (200000 / 1000) ++ "s of inactivity.") :=
  ⟨claim_C8_timeout_boundary.1 [0] 0 (by simp),
   claim_C8_timeout_boundary.2.1 [90000] 100000 (by decide) (by decide),
   claim_C8_timeout_boundary.2.2 noRegexEngine exSettings idleEngine
     ⟨none, none, [], "", true, 200000, 0, false⟩ "m" "c" rfl rfl rfl rfl rfl⟩
